import Mathlib

/-!
# Wire formats of `CTPTest/application.h` (TinyOSIDS)

`application.h` is a nesC header: it declares active-message identifiers,
command codes, bit masks for the sensor-reading encodings and a set of
`nx_struct` packet layouts.  This development embeds

* every enumerator as a natural-number constant carrying the source's name,
* every fully declared `nx_struct` as a list of fields in declaration order
  (name, external `nx_` type, array dimension),
* the meaning nesC gives to `nx_` types: each scalar is stored big-endian in
  exactly its width, signed scalars in two's complement, and the members of an
  `nx_struct` follow each other without padding; the members of an `nx_union`
  all start at the union's first byte and the union is as large as its largest
  member,

and proves the layout facts the specification states about them.
-/

namespace TinyOSIDS

/-! ## Constants of the header -/

/-- Line 43: default payload length of a packet. -/
def TOSH_DATA_LENGTH : Nat := 34

/-! ### Active-message identifiers (lines 68-89) -/

def AM_RSSIMSG : Nat := 10
def AM_PINGMSG : Nat := 11
def AM_MULTIPINGMSG : Nat := 12
def AM_MULTIPINGRESPONSEMSG : Nat := 13
def AM_COMMANDMSG : Nat := 14
def AM_MULTIPINGRESPONSEREPORTMSG : Nat := 16
def AM_MULTIPINGRESPONSETINYREPORTMSG : Nat := 17
def AM_NOISEFLOORREADINGMSG : Nat := 18
def AM_IDENTIFYMSG : Nat := 40
def AM_TIMESYNCMSG : Nat := 0xea
def AM_CTPINFOMSG : Nat := 0xec
def AM_CTPSENDREQUESTMSG : Nat := 0xee
def AM_CTPRESPONSEMSG : Nat := 0xef
def AM_CTPREPORTDATAMSG : Nat := 0xed
def AM_COLLECTIONDEBUGMSG : Nat := 0x72

/-- The fifteen enumerators of the `AM_*` enumeration, as message kinds. -/
inductive AmKind where
  | RSSIMSG | PINGMSG | MULTIPINGMSG | MULTIPINGRESPONSEMSG | COMMANDMSG
  | MULTIPINGRESPONSEREPORTMSG | MULTIPINGRESPONSETINYREPORTMSG
  | NOISEFLOORREADINGMSG | IDENTIFYMSG | TIMESYNCMSG | CTPINFOMSG
  | CTPSENDREQUESTMSG | CTPRESPONSEMSG | CTPREPORTDATAMSG | COLLECTIONDEBUGMSG
  deriving DecidableEq, Repr

/-- The identifier the enumeration gives to each message kind. -/
def AmKind.amId : AmKind → Nat
  | .RSSIMSG => AM_RSSIMSG
  | .PINGMSG => AM_PINGMSG
  | .MULTIPINGMSG => AM_MULTIPINGMSG
  | .MULTIPINGRESPONSEMSG => AM_MULTIPINGRESPONSEMSG
  | .COMMANDMSG => AM_COMMANDMSG
  | .MULTIPINGRESPONSEREPORTMSG => AM_MULTIPINGRESPONSEREPORTMSG
  | .MULTIPINGRESPONSETINYREPORTMSG => AM_MULTIPINGRESPONSETINYREPORTMSG
  | .NOISEFLOORREADINGMSG => AM_NOISEFLOORREADINGMSG
  | .IDENTIFYMSG => AM_IDENTIFYMSG
  | .TIMESYNCMSG => AM_TIMESYNCMSG
  | .CTPINFOMSG => AM_CTPINFOMSG
  | .CTPSENDREQUESTMSG => AM_CTPSENDREQUESTMSG
  | .CTPRESPONSEMSG => AM_CTPRESPONSEMSG
  | .CTPREPORTDATAMSG => AM_CTPREPORTDATAMSG
  | .COLLECTIONDEBUGMSG => AM_COLLECTIONDEBUGMSG

/-- All message kinds, in declaration order. -/
def AmKind.all : List AmKind :=
  [.RSSIMSG, .PINGMSG, .MULTIPINGMSG, .MULTIPINGRESPONSEMSG, .COMMANDMSG,
   .MULTIPINGRESPONSEREPORTMSG, .MULTIPINGRESPONSETINYREPORTMSG,
   .NOISEFLOORREADINGMSG, .IDENTIFYMSG, .TIMESYNCMSG, .CTPINFOMSG,
   .CTPSENDREQUESTMSG, .CTPRESPONSEMSG, .CTPREPORTDATAMSG, .COLLECTIONDEBUGMSG]

/-! ### Command codes (lines 380-467) -/

def COMMAND_NONE : Nat := 0
def COMMAND_ABORT : Nat := 1
def COMMAND_IDENTIFY : Nat := 2
def COMMAND_RESET : Nat := 3
def COMMAND_SETTX : Nat := 4
def COMMAND_SETCHANNEL : Nat := 5
def COMMAND_ACK : Nat := 6
def COMMAND_NACK : Nat := 7
def COMMAND_SETBS : Nat := 8
def COMMAND_LOCK : Nat := 9
def COMMAND_GETREPORTINGSTATUS : Nat := 10
def COMMAND_SETREPORTINGSTATUS : Nat := 11
def COMMAND_SETDORANDOMIZEDTHRESHOLDING : Nat := 12
def COMMAND_SETQUEUEFLUSHTHRESHOLD : Nat := 13
def COMMAND_SETTINYREPORTS : Nat := 14
def COMMAND_SETOPERATIONMODE : Nat := 15
def COMMAND_SETREPORTPROTOCOL : Nat := 16
def COMMAND_FLUSHREPORTQUEUE : Nat := 17
def COMMAND_SETNOISEFLOORREADING : Nat := 18
def COMMAND_SETSAMPLESENSORREADING : Nat := 24
def COMMAND_SETREPORTGAP : Nat := 19
def COMMAND_GETSENSORREADING : Nat := 20
def COMMAND_SENSORREADING : Nat := 21
def COMMAND_SETPIN : Nat := 22
def COMMAND_GETPIN : Nat := 23
def COMMAND_FETCHSETTINGS : Nat := 25
def COMMAND_FORWARDING_RADIO_ENABLED : Nat := 26
def COMMAND_FORWARDING_SERIAL_ENABLED : Nat := 27
def COMMAND_DEFAULT_FORWARDING_RADIO_ENABLED : Nat := 28
def COMMAND_DEFAULT_FORWARDING_SERIAL_ENABLED : Nat := 29
def COMMAND_RADIO_SNOOPING_ENABLED : Nat := 30
def COMMAND_RADIO_ADDRESS_RECOGNITION_ENABLED : Nat := 31
def COMMAND_SET_CTP_ROOT : Nat := 32
def COMMAND_CTP_ROUTE_UPDATE : Nat := 33
def COMMAND_CTP_GETINFO : Nat := 34
def COMMAND_CTP_CONTROL : Nat := 35
def COMMAND_TIMESYNC_GETGLOBAL : Nat := 36
def COMMAND_PING : Nat := 37
def COMMAND_TIMESYNC_GETGLOBAL_BCAST : Nat := 38

/-- The enumerators of the `COMMAND_*` enumeration, in declaration order. -/
def commandCodes : List Nat :=
  [COMMAND_NONE, COMMAND_ABORT, COMMAND_IDENTIFY, COMMAND_RESET, COMMAND_SETTX,
   COMMAND_SETCHANNEL, COMMAND_ACK, COMMAND_NACK, COMMAND_SETBS, COMMAND_LOCK,
   COMMAND_GETREPORTINGSTATUS, COMMAND_SETREPORTINGSTATUS,
   COMMAND_SETDORANDOMIZEDTHRESHOLDING, COMMAND_SETQUEUEFLUSHTHRESHOLD,
   COMMAND_SETTINYREPORTS, COMMAND_SETOPERATIONMODE, COMMAND_SETREPORTPROTOCOL,
   COMMAND_FLUSHREPORTQUEUE, COMMAND_SETNOISEFLOORREADING,
   COMMAND_SETSAMPLESENSORREADING, COMMAND_SETREPORTGAP,
   COMMAND_GETSENSORREADING, COMMAND_SENSORREADING, COMMAND_SETPIN,
   COMMAND_GETPIN, COMMAND_FETCHSETTINGS, COMMAND_FORWARDING_RADIO_ENABLED,
   COMMAND_FORWARDING_SERIAL_ENABLED, COMMAND_DEFAULT_FORWARDING_RADIO_ENABLED,
   COMMAND_DEFAULT_FORWARDING_SERIAL_ENABLED, COMMAND_RADIO_SNOOPING_ENABLED,
   COMMAND_RADIO_ADDRESS_RECOGNITION_ENABLED, COMMAND_SET_CTP_ROOT,
   COMMAND_CTP_ROUTE_UPDATE, COMMAND_CTP_GETINFO, COMMAND_CTP_CONTROL,
   COMMAND_TIMESYNC_GETGLOBAL, COMMAND_PING, COMMAND_TIMESYNC_GETGLOBAL_BCAST]

/-! ### Sensor-reading masks (lines 496-538) -/

def SCALE_LAST_LINE : Nat := 0x1000
def MASK_LAST_LINE : Nat := 0x1000
def SCALE_TYPE : Nat := 0x0100
def MASK_TYPE : Nat := 0x0F00
def SCALE_VERB : Nat := 0x0010
def MASK_VERB : Nat := 0x00F0
def SCALE_SELECT_MSG : Nat := 0x0008
def MASK_SELECT_MSG : Nat := 0x0008
def SCALE_MSG_LOGIC : Nat := 0x0001
def MASK_MSG_LOGIC : Nat := 0x0007
def SCALE_TYPE_READ : Nat := 0x0400
def MASK_TYPE_READ : Nat := 0x1C00
def SCALE_NUM_ALERT : Nat := 0x0001
def MASK_NUM_ALERT : Nat := 0x03FF

/-- The field extraction the header's layout comments prescribe:
`(A & MASK) / SCALE`. -/
def extractField (mask scale A : Nat) : Nat := (A &&& mask) / scale

/-- The five (mask, scale) pairs of the ConditionTypeValide encoding. -/
def conditionFields : List (Nat × Nat) :=
  [(MASK_LAST_LINE, SCALE_LAST_LINE), (MASK_TYPE, SCALE_TYPE),
   (MASK_VERB, SCALE_VERB), (MASK_SELECT_MSG, SCALE_SELECT_MSG),
   (MASK_MSG_LOGIC, SCALE_MSG_LOGIC)]

/-- Lines 223-227: number of per-node entries of a report packet. -/
def MULTIPINGRESPONSEREPORT_MAXDATA : Nat := 3

/-! ## The external `nx_` types

nesC network types: a value of an `nx_` type is stored in exactly its width, most
significant byte first, whatever the host's byte order and alignment. -/

/-- The `nx_` scalar types the header uses. -/
inductive NxType where
  | nx_uint8_t | nx_int8_t | nx_uint16_t | nx_int16_t | nx_uint32_t
  deriving DecidableEq, Repr

/-- TinyOS declares `nx_bool` as a one-byte network type
(`typedef nx_int8_t nx_bool;` in `tos.h`). -/
abbrev NxType.nx_bool : NxType := NxType.nx_int8_t

/-- Width of a scalar in bytes. -/
def NxType.size : NxType → Nat
  | .nx_uint8_t => 1
  | .nx_int8_t => 1
  | .nx_uint16_t => 2
  | .nx_int16_t => 2
  | .nx_uint32_t => 4

/-- Signedness of a scalar. -/
def NxType.isSigned : NxType → Bool
  | .nx_int8_t => true
  | .nx_int16_t => true
  | _ => false

/-- The values of a scalar type: `0 .. 2^w - 1` when unsigned,
`-2^(w-1) .. 2^(w-1) - 1` when signed (`w` the width in bits). -/
def NxType.inRange (t : NxType) (v : Int) : Bool :=
  if t.isSigned then
    decide (-(2 : Int) ^ (8 * t.size - 1) ≤ v ∧ v < (2 : Int) ^ (8 * t.size - 1))
  else
    decide (0 ≤ v ∧ v < (2 : Int) ^ (8 * t.size))

/-- The `n` low bytes of `u`, most significant first. -/
def htonNat : Nat → Nat → List Nat
  | 0, _ => []
  | n + 1, u => (u / 256 ^ n % 256) :: htonNat n u

/-- The number a big-endian byte string denotes. -/
def ntohNat (bs : List Nat) : Nat :=
  bs.foldl (fun acc b => acc * 256 + b) 0

/-- Network representation of a scalar: the two's complement of `v` in the
type's width, big-endian. -/
def NxType.hton (t : NxType) (v : Int) : List Nat :=
  htonNat t.size (v % (2 : Int) ^ (8 * t.size)).toNat

/-- Host value of a scalar read from its `size` bytes. -/
def NxType.ntoh (t : NxType) (bs : List Nat) : Int :=
  let u := ntohNat bs
  if t.isSigned && decide (2 ^ (8 * t.size - 1) ≤ u) then
    (u : Int) - (2 : Int) ^ (8 * t.size)
  else
    (u : Int)

/-! ## Layouts -/

/-- One member of an `nx_struct`: `dim = none` for a scalar member,
`dim = some n` for an array member `ty name[n]`. -/
structure Field where
  name : String
  ty : NxType
  dim : Option Nat
  deriving DecidableEq, Repr

/-- An `nx_struct`: its members in declaration order. -/
abbrev NxStruct := List Field

/-- Bytes a member occupies. -/
def Field.size (f : Field) : Nat :=
  match f.dim with
  | none => f.ty.size
  | some n => n * f.ty.size

/-- Bytes an `nx_struct` occupies: members are packed, so the widths add up. -/
def NxStruct.size (s : NxStruct) : Nat :=
  (s.map Field.size).sum

/-- Byte offset of the `i`-th member. -/
def NxStruct.offset (s : NxStruct) (i : Nat) : Nat :=
  NxStruct.size (s.take i)

/-- The value of one member. -/
inductive Value where
  | scalar (v : Int)
  | array (vs : List Int)
  deriving DecidableEq, Repr

/-- The value of a structure: the values of its members in declaration order. -/
abbrev Record := List Value

/-- A value fits a member: a scalar in range for a scalar member, exactly `n`
in-range elements for an array member of dimension `n`. -/
def Field.wellTyped (f : Field) : Value → Bool
  | .scalar v => f.dim.isNone && f.ty.inRange v
  | .array vs => decide (f.dim = some vs.length) && vs.all f.ty.inRange

/-- A record fits a structure: one fitting value per member. -/
def wellTyped : NxStruct → Record → Bool
  | [], [] => true
  | f :: fs, v :: vs => f.wellTyped v && wellTyped fs vs
  | _, _ => false

/-- Elements of an array, one after the other. -/
def encodeArray (t : NxType) : List Int → List Nat
  | [] => []
  | v :: vs => t.hton v ++ encodeArray t vs

/-- Bytes of one member.  Only values of the member's type have bytes: `none`
marks a term that is no value of that type (a scalar outside the range of the
`nx_` type, a list that is not the declared array).  It is bookkeeping of this
embedding; the header holds no check, and nothing is derived from `none`. -/
def Field.encode (f : Field) (v : Value) : Option (List Nat) :=
  if f.wellTyped v then
    match v with
    | .scalar x => some (f.ty.hton x)
    | .array xs => some (encodeArray f.ty xs)
  else none

/-- Bytes of a structure: the members' bytes in declaration order, unpadded. -/
def encode : NxStruct → Record → Option (List Nat)
  | [], [] => some []
  | f :: fs, v :: vs =>
    match f.encode v, encode fs vs with
    | some b, some bs => some (b ++ bs)
    | _, _ => none
  | _, _ => none

/-- Read one scalar off the front of a byte string. -/
def decodeScalar (t : NxType) (bs : List Nat) : Option (Int × List Nat) :=
  if t.size ≤ bs.length then some (t.ntoh (bs.take t.size), bs.drop t.size) else none

/-- Read `n` consecutive scalars. -/
def decodeArray (t : NxType) : Nat → List Nat → Option (List Int × List Nat)
  | 0, bs => some ([], bs)
  | n + 1, bs =>
    match decodeScalar t bs with
    | none => none
    | some (v, rest) =>
      match decodeArray t n rest with
      | none => none
      | some (vs, rest2) => some (v :: vs, rest2)

/-- Read one member. -/
def Field.decode (f : Field) (bs : List Nat) : Option (Value × List Nat) :=
  match f.dim with
  | none =>
    match decodeScalar f.ty bs with
    | none => none
    | some (v, rest) => some (Value.scalar v, rest)
  | some n =>
    match decodeArray f.ty n bs with
    | none => none
    | some (vs, rest) => some (Value.array vs, rest)

/-- Read a structure off the front of a byte string, returning the bytes left. -/
def decode : NxStruct → List Nat → Option (Record × List Nat)
  | [], bs => some ([], bs)
  | f :: fs, bs =>
    match f.decode bs with
    | none => none
    | some (v, rest) =>
      match decode fs rest with
      | none => none
      | some (vs, rest2) => some (v :: vs, rest2)

/-! ## The structures of the header, in declaration order -/

/-- Lines 118-123. -/
def TimeSyncMsg : NxStruct :=
  [⟨"counter", .nx_uint8_t, none⟩,
   ⟨"high", .nx_uint32_t, none⟩,
   ⟨"low", .nx_uint32_t, none⟩,
   ⟨"flags", .nx_uint8_t, none⟩]

/-- Lines 127-145. -/
def RssiMsg : NxStruct :=
  [⟨"nodeid", .nx_uint8_t, none⟩,
   ⟨"dstnodeid", .nx_uint8_t, none⟩,
   ⟨"counter", .nx_uint16_t, none⟩,
   ⟨"rssi", .nx_int16_t, none⟩,
   ⟨"rssiFromBase", .nx_int16_t, none⟩]

/-- Lines 149-154. -/
def PingMsg : NxStruct :=
  [⟨"nodeid", .nx_uint8_t, none⟩,
   ⟨"counter", .nx_uint16_t, none⟩,
   ⟨"txpower", .nx_uint8_t, none⟩,
   ⟨"channel", .nx_uint8_t, none⟩]

/-- Lines 158-190. -/
def MultiPingMsg : NxStruct :=
  [⟨"destination", .nx_uint16_t, none⟩,
   ⟨"counter", .nx_uint16_t, none⟩,
   ⟨"txpower", .nx_uint8_t, none⟩,
   ⟨"channel", .nx_uint8_t, none⟩,
   ⟨"packets", .nx_uint16_t, none⟩,
   ⟨"delay", .nx_uint16_t, none⟩,
   ⟨"size", .nx_uint8_t, none⟩,
   ⟨"counterStrategySuccess", .nx_bool, none⟩,
   ⟨"timerStrategyPeriodic", .nx_bool, none⟩]

/-- Lines 193-199. -/
def NoiseFloorReadingMsg : NxStruct :=
  [⟨"counter", .nx_uint16_t, none⟩,
   ⟨"noise", .nx_uint16_t, none⟩]

/-- Lines 201-207; `data[0]` is the empty tail of a variable-sized message. -/
def MultiPingResponseMsg : NxStruct :=
  [⟨"counter", .nx_uint16_t, none⟩,
   ⟨"data", .nx_uint8_t, some 0⟩]

/-- Lines 213-218. -/
def MultiPingResponseReportStruct : NxStruct :=
  [⟨"nodeid", .nx_uint16_t, none⟩,
   ⟨"nodecounter", .nx_uint16_t, none⟩,
   ⟨"rssi", .nx_int16_t, none⟩,
   ⟨"len", .nx_uint8_t, none⟩]

/-- Lines 234-249. -/
def MultiPingResponseReportMsg : NxStruct :=
  [⟨"counter", .nx_uint16_t, none⟩,
   ⟨"datanum", .nx_uint8_t, none⟩,
   ⟨"nodeid", .nx_uint16_t, some MULTIPINGRESPONSEREPORT_MAXDATA⟩,
   ⟨"nodecounter", .nx_uint16_t, some MULTIPINGRESPONSEREPORT_MAXDATA⟩,
   ⟨"rssi", .nx_int16_t, some MULTIPINGRESPONSEREPORT_MAXDATA⟩,
   ⟨"len", .nx_int8_t, some MULTIPINGRESPONSEREPORT_MAXDATA⟩]

/-- Lines 252-266. -/
def MassReportMsg : NxStruct :=
  [⟨"counter", .nx_uint16_t, none⟩,
   ⟨"datanum", .nx_uint8_t, none⟩,
   ⟨"nodeid", .nx_uint8_t, some MULTIPINGRESPONSEREPORT_MAXDATA⟩,
   ⟨"nodecounter", .nx_uint16_t, some MULTIPINGRESPONSEREPORT_MAXDATA⟩,
   ⟨"rssi", .nx_int16_t, some MULTIPINGRESPONSEREPORT_MAXDATA⟩]

/-- Lines 270-281. -/
def MultiPingResponseTinyReportMsg : NxStruct :=
  [⟨"counter", .nx_uint16_t, none⟩,
   ⟨"nodeid", .nx_uint16_t, none⟩,
   ⟨"nodecounter", .nx_uint16_t, none⟩,
   ⟨"rssi", .nx_int16_t, none⟩]

/-- Lines 326-351. -/
def CommandMsg : NxStruct :=
  [⟨"command_code", .nx_uint8_t, none⟩,
   ⟨"command_version", .nx_uint8_t, none⟩,
   ⟨"command_id", .nx_uint16_t, none⟩,
   ⟨"reply_on_command", .nx_uint8_t, none⟩,
   ⟨"reply_on_command_id", .nx_uint16_t, none⟩,
   ⟨"command_data", .nx_uint16_t, none⟩,
   ⟨"command_data_next", .nx_uint16_t, some 4⟩]

/-- Lines 354-375. -/
def IdentifyMsg : NxStruct :=
  [⟨"counter", .nx_uint16_t, none⟩,
   ⟨"nodeId", .nx_uint16_t, none⟩,
   ⟨"replyOn", .nx_uint8_t, none⟩,
   ⟨"platformId", .nx_uint8_t, none⟩,
   ⟨"identifyAfterBoot", .nx_uint8_t, none⟩,
   ⟨"radioQueueLen", .nx_uint8_t, none⟩,
   ⟨"serialQueueLen", .nx_uint8_t, none⟩,
   ⟨"rssiQueueLen", .nx_uint8_t, none⟩,
   ⟨"failCount", .nx_uint8_t, none⟩,
   ⟨"command_data_next", .nx_uint16_t, some 4⟩]

/-- Lines 540-547. -/
def CtpResponseMsg : NxStruct :=
  [⟨"origin", .nx_uint16_t, none⟩,
   ⟨"seqno", .nx_uint16_t, none⟩,
   ⟨"parent", .nx_uint16_t, none⟩,
   ⟨"metric", .nx_uint16_t, none⟩,
   ⟨"dataType", .nx_uint8_t, none⟩,
   ⟨"data", .nx_uint16_t, none⟩]

/-- Lines 557-591. -/
def CtpSendRequestMsg : NxStruct :=
  [⟨"counter", .nx_uint16_t, none⟩,
   ⟨"packets", .nx_uint16_t, none⟩,
   ⟨"delay", .nx_uint16_t, none⟩,
   ⟨"delayVariability", .nx_uint16_t, none⟩,
   ⟨"size", .nx_uint8_t, none⟩,
   ⟨"dataSource", .nx_uint8_t, none⟩,
   ⟨"flags", .nx_uint16_t, none⟩]

/-! ### `CtpInfoMsg` (lines 613-639): a type byte and a union of three members -/

/-- The members of the `nx_union` of `CtpInfoMsg`. -/
inductive CtpInfoArm where
  | data | status | neighInfo
  deriving DecidableEq, Repr

/-- Lines 616-618: member `data`. -/
def CtpInfoMsg_data : NxStruct :=
  [⟨"data", .nx_uint16_t, some 6⟩]

/-- Lines 620-628: member `status`. -/
def CtpInfoMsg_status : NxStruct :=
  [⟨"parent", .nx_uint16_t, none⟩,
   ⟨"etx", .nx_uint16_t, none⟩,
   ⟨"neighbors", .nx_uint8_t, none⟩,
   ⟨"serialQueueSize", .nx_uint8_t, none⟩,
   ⟨"ctpSeqNo", .nx_uint16_t, none⟩,
   ⟨"ctpBusyCount", .nx_uint8_t, none⟩,
   ⟨"flags", .nx_uint16_t, none⟩]

/-- Lines 630-636: member `neighInfo`. -/
def CtpInfoMsg_neighInfo : NxStruct :=
  [⟨"num", .nx_uint8_t, none⟩,
   ⟨"addr", .nx_uint16_t, none⟩,
   ⟨"linkQuality", .nx_uint16_t, none⟩,
   ⟨"routeQuality", .nx_uint16_t, none⟩,
   ⟨"flags", .nx_uint16_t, none⟩]

/-- The layout of each member of the union. -/
def CtpInfoArm.layout : CtpInfoArm → NxStruct
  | .data => CtpInfoMsg_data
  | .status => CtpInfoMsg_status
  | .neighInfo => CtpInfoMsg_neighInfo

/-- The members of the union, in declaration order. -/
def CtpInfoArm.all : List CtpInfoArm := [.data, .status, .neighInfo]

/-- An `nx_union` is as large as its largest member. -/
def CtpInfoMsg_unionSize : Nat :=
  (CtpInfoArm.all.map (fun a => a.layout.size)).foldl max 0

/-- The leading member `nx_uint8_t type`. -/
def CtpInfoMsg_type : Field := ⟨"type", NxType.nx_uint8_t, none⟩

/-- Offset of the union in `CtpInfoMsg`: it follows the `type` member. -/
def CtpInfoMsg_unionOffset : Nat := CtpInfoMsg_type.size

/-- Size of `CtpInfoMsg`: the `type` member followed by the union. -/
def CtpInfoMsg_size : Nat := CtpInfoMsg_type.size + CtpInfoMsg_unionSize

/-- Bytes of a `CtpInfoMsg` whose union holds member `arm` with value `r`.
Storing a member writes that member's bytes from the union's first byte on and
leaves the union's remaining bytes as they were: `fill` is the previous content
of the union's storage. -/
def encodeCtpInfoMsg (type : Int) (arm : CtpInfoArm) (r : Record) (fill : List Nat) :
    Option (List Nat) :=
  if fill.length = CtpInfoMsg_unionSize then
    match CtpInfoMsg_type.encode (Value.scalar type), encode arm.layout r with
    | some t, some bs => some (t ++ (bs ++ fill.drop bs.length))
    | _, _ => none
  else none

/-- Read a `CtpInfoMsg`: the `type` byte, then the member of the union that
the discriminator selects, read from the union's first byte.  The header does
not say which discriminator value stands for which member, so the selection
`sel` is a parameter. -/
def decodeCtpInfoMsg (sel : Int → CtpInfoArm) (bs : List Nat) :
    Option (Int × CtpInfoArm × Record × List Nat) :=
  match decodeScalar CtpInfoMsg_type.ty bs with
  | none => none
  | some (t, rest) =>
    if CtpInfoMsg_unionSize ≤ rest.length then
      match decode (sel t).layout (rest.take CtpInfoMsg_unionSize) with
      | none => none
      | some (r, _) => some (t, sel t, r, rest.drop CtpInfoMsg_unionSize)
    else none

/-! ### Tables -/

/-- The twelve structures whose round trip the specification lists. -/
def roundTripStructs : List NxStruct :=
  [TimeSyncMsg, RssiMsg, PingMsg, MultiPingMsg, NoiseFloorReadingMsg,
   MultiPingResponseReportMsg, MassReportMsg, MultiPingResponseTinyReportMsg,
   CommandMsg, IdentifyMsg, CtpResponseMsg, CtpSendRequestMsg]

/-- Every `nx_struct` the header declares in full (all member types known). -/
def declaredStructs : List NxStruct :=
  [TimeSyncMsg, RssiMsg, PingMsg, MultiPingMsg, NoiseFloorReadingMsg,
   MultiPingResponseMsg, MultiPingResponseReportStruct,
   MultiPingResponseReportMsg, MassReportMsg, MultiPingResponseTinyReportMsg,
   CommandMsg, IdentifyMsg, CtpResponseMsg, CtpSendRequestMsg]

/-! ### Array members -/

/-- Dimensions of the array members of a structure, in declaration order. -/
def NxStruct.dims (s : NxStruct) : List Nat :=
  s.filterMap Field.dim

/-- Declared dimension of the member called `name` (`none` when the member is
a scalar or absent). -/
def NxStruct.dimOf (s : NxStruct) (name : String) : Option Nat :=
  match s.find? (fun f => f.name == name) with
  | some f => f.dim
  | none => none

/-- Number of elements each array of a record holds, in member order. -/
def arrayLengths : Record → List Nat
  | [] => []
  | Value.scalar _ :: r => arrayLengths r
  | Value.array vs :: r => vs.length :: arrayLengths r


/-! ## Scalars: big-endian bytes and back -/

theorem htonNat_length (n u : Nat) : (htonNat n u).length = n := by
  induction n with
  | zero => rfl
  | succ n ih => simp [htonNat, ih]

theorem htonNat_lt (n u : Nat) : ∀ b ∈ htonNat n u, b < 256 := by
  induction n with
  | zero => intro b hb; simp [htonNat] at hb
  | succ n ih =>
    intro b hb
    simp only [htonNat, List.mem_cons] at hb
    rcases hb with rfl | hb
    · exact Nat.mod_lt _ (by norm_num)
    · exact ih b hb

theorem foldl_htonNat (n u acc : Nat) :
    (htonNat n u).foldl (fun a b => a * 256 + b) acc = acc * 256 ^ n + u % 256 ^ n := by
  induction n generalizing acc with
  | zero => simp [htonNat, Nat.mod_one]
  | succ n ih =>
    simp only [htonNat, List.foldl_cons, ih]
    rw [Nat.mod_pow_succ, pow_succ]
    ring

theorem ntohNat_htonNat (n u : Nat) : ntohNat (htonNat n u) = u % 256 ^ n := by
  simp [ntohNat, foldl_htonNat]

theorem hton_length (t : NxType) (v : Int) : (t.hton v).length = t.size := by
  simp [NxType.hton, htonNat_length]

theorem ntoh_hton (t : NxType) (v : Int) (h : t.inRange v = true) :
    t.ntoh (t.hton v) = v := by
  cases t <;>
    simp only [NxType.inRange, NxType.isSigned, NxType.size, Bool.false_eq_true, if_true,
      if_false, decide_eq_true_eq] at h <;>
    simp only [NxType.ntoh, NxType.hton, ntohNat_htonNat, NxType.isSigned, NxType.size,
      Bool.true_and, Bool.false_and, Bool.false_eq_true, if_false, decide_eq_true_eq] <;>
    norm_num at h ⊢ <;>
    omega

theorem decodeScalar_hton (t : NxType) (v : Int) (rest : List Nat)
    (h : t.inRange v = true) : decodeScalar t (t.hton v ++ rest) = some (v, rest) := by
  have hl := hton_length t v
  have h1 : t.size ≤ (t.hton v ++ rest).length := by simp [hl]
  have h2 : (t.hton v ++ rest).take t.size = t.hton v := by
    rw [← hl]; exact List.take_left _ _
  have h3 : (t.hton v ++ rest).drop t.size = rest := by
    rw [← hl]; exact List.drop_left _ _
  rw [decodeScalar, if_pos h1, h2, h3, ntoh_hton t v h]

/-! ## Arrays -/

theorem encodeArray_length (t : NxType) (vs : List Int) :
    (encodeArray t vs).length = vs.length * t.size := by
  induction vs with
  | nil => simp [encodeArray]
  | cons v vs ih => simp [encodeArray, ih, hton_length, Nat.succ_mul, Nat.add_comm]

theorem decodeArray_encodeArray (t : NxType) (vs : List Int) (rest : List Nat)
    (h : vs.all t.inRange = true) :
    decodeArray t vs.length (encodeArray t vs ++ rest) = some (vs, rest) := by
  induction vs with
  | nil => simp [decodeArray, encodeArray]
  | cons v vs ih =>
    simp only [List.all_cons, Bool.and_eq_true] at h
    simp only [List.length_cons, decodeArray, encodeArray, List.append_assoc,
      decodeScalar_hton t v _ h.1, ih h.2]

theorem decodeArray_length (t : NxType) (n : Nat) (bs : List Nat) (vs : List Int)
    (rest : List Nat) (h : decodeArray t n bs = some (vs, rest)) : vs.length = n := by
  induction n generalizing bs vs rest with
  | zero =>
    simp only [decodeArray, Option.some.injEq, Prod.mk.injEq] at h
    rw [← h.1]; rfl
  | succ n ih =>
    simp only [decodeArray] at h
    cases hd : decodeScalar t bs with
    | none => simp [hd] at h
    | some p =>
      obtain ⟨v, r1⟩ := p
      simp only [hd] at h
      cases hw : decodeArray t n r1 with
      | none => simp [hw] at h
      | some q =>
        obtain ⟨ws, r2⟩ := q
        simp only [hw, Option.some.injEq, Prod.mk.injEq] at h
        rw [← h.1, List.length_cons, ih _ _ _ hw]

/-! ## Members -/

theorem Field.wellTyped_of_encode (f : Field) (v : Value) (bs : List Nat)
    (h : f.encode v = some bs) : f.wellTyped v = true := by
  unfold Field.encode at h
  split at h
  · assumption
  · exact absurd h (by simp)

theorem Field.decode_encode_member (f : Field) (v : Value) (h : f.wellTyped v = true) :
    ∃ bs, f.encode v = some bs ∧ bs.length = f.size ∧
      ∀ rest, f.decode (bs ++ rest) = some (v, rest) := by
  obtain ⟨name, ty, dim⟩ := f
  cases v with
  | scalar x =>
    cases dim with
    | some n => simp [Field.wellTyped] at h
    | none =>
      simp only [Field.wellTyped, Option.isNone_none, Bool.true_and] at h
      refine ⟨ty.hton x, ?_, ?_, ?_⟩
      · simp [Field.encode, Field.wellTyped, h]
      · simp [Field.size, hton_length]
      · intro rest
        simp [Field.decode, decodeScalar_hton ty x rest h]
  | array xs =>
    cases dim with
    | none => simp [Field.wellTyped] at h
    | some n =>
      simp only [Field.wellTyped, Option.some.injEq, Bool.and_eq_true, decide_eq_true_eq] at h
      obtain ⟨hn, hall⟩ := h
      subst hn
      refine ⟨encodeArray ty xs, ?_, ?_, ?_⟩
      · simp [Field.encode, Field.wellTyped, hall]
      · simp [Field.size, encodeArray_length]
      · intro rest
        simp [Field.decode, decodeArray_encodeArray ty xs rest hall]

/-! ## Structures -/

theorem wellTyped_of_encode_struct (s : NxStruct) (r : Record) (bs : List Nat)
    (h : encode s r = some bs) : wellTyped s r = true := by
  induction s generalizing r bs with
  | nil =>
    cases r with
    | nil => rfl
    | cons v vs => simp [encode] at h
  | cons f fs ih =>
    cases r with
    | nil => simp [encode] at h
    | cons v vs =>
      simp only [encode] at h
      split at h
      · next b bs2 hb hbs =>
        simp [wellTyped, Field.wellTyped_of_encode f v b hb, ih vs bs2 hbs]
      · exact absurd h (by simp)

theorem decode_encode_struct (s : NxStruct) (r : Record) (h : wellTyped s r = true) :
    ∃ bs, encode s r = some bs ∧ bs.length = s.size ∧
      ∀ rest, decode s (bs ++ rest) = some (r, rest) := by
  induction s generalizing r with
  | nil =>
    cases r with
    | nil => exact ⟨[], rfl, rfl, fun rest => rfl⟩
    | cons v vs => simp [wellTyped] at h
  | cons f fs ih =>
    cases r with
    | nil => simp [wellTyped] at h
    | cons v vs =>
      simp only [wellTyped, Bool.and_eq_true] at h
      obtain ⟨b, hb, hbl, hbd⟩ := Field.decode_encode_member f v h.1
      obtain ⟨bs, hbs, hbsl, hbsd⟩ := ih vs h.2
      refine ⟨b ++ bs, ?_, ?_, ?_⟩
      · simp [encode, hb, hbs]
      · simp [NxStruct.size, hbl, hbsl] at hbsl ⊢
      · intro rest
        simp [decode, List.append_assoc, hbd, hbsd]

theorem hton_lt (t : NxType) (v : Int) : ∀ b ∈ t.hton v, b < 256 :=
  htonNat_lt _ _

theorem encodeArray_lt (t : NxType) (vs : List Int) : ∀ b ∈ encodeArray t vs, b < 256 := by
  induction vs with
  | nil => intro b hb; simp [encodeArray] at hb
  | cons v vs ih =>
    intro b hb
    simp only [encodeArray, List.mem_append] at hb
    rcases hb with hb | hb
    · exact hton_lt t v b hb
    · exact ih b hb

/-- Every element of an encoding is a byte. -/
theorem encode_lt (s : NxStruct) (r : Record) (bs : List Nat) (h : encode s r = some bs) :
    ∀ b ∈ bs, b < 256 := by
  induction s generalizing r bs with
  | nil =>
    cases r with
    | nil =>
      simp only [encode, Option.some.injEq] at h
      subst h; intro b hb; simp at hb
    | cons v vs => simp [encode] at h
  | cons f fs ih =>
    cases r with
    | nil => simp [encode] at h
    | cons v vs =>
      simp only [encode] at h
      split at h
      · next b1 bs2 hb1 hbs2 =>
        simp only [Option.some.injEq] at h
        subst h
        intro b hb
        rw [List.mem_append] at hb
        rcases hb with hb | hb
        · unfold Field.encode at hb1
          split at hb1
          · cases v with
            | scalar x =>
              simp only [Option.some.injEq] at hb1
              subst hb1
              exact hton_lt _ _ b hb
            | array xs =>
              simp only [Option.some.injEq] at hb1
              subst hb1
              exact encodeArray_lt _ _ b hb
          · exact absurd hb1 (by simp)
        · exact ih vs bs2 hbs2 b hb
      · exact absurd h (by simp)

theorem encode_length (s : NxStruct) (r : Record) (bs : List Nat)
    (h : encode s r = some bs) : bs.length = s.size := by
  obtain ⟨bs2, h2, hl, _⟩ := decode_encode_struct s r (wellTyped_of_encode_struct s r bs h)
  rw [h] at h2
  cases h2
  exact hl

/-! ## Array members hold exactly their dimension -/

theorem arrayLengths_of_wellTyped (s : NxStruct) (r : Record) (h : wellTyped s r = true) :
    arrayLengths r = s.dims := by
  induction s generalizing r with
  | nil =>
    cases r with
    | nil => rfl
    | cons v vs => simp [wellTyped] at h
  | cons f fs ih =>
    cases r with
    | nil => simp [wellTyped] at h
    | cons v vs =>
      simp only [wellTyped, Bool.and_eq_true] at h
      obtain ⟨name, ty, dim⟩ := f
      cases v with
      | scalar x =>
        cases dim with
        | some n => simp [Field.wellTyped] at h
        | none => simp [arrayLengths, NxStruct.dims, List.filterMap_cons, ih vs h.2]
      | array xs =>
        cases dim with
        | none => simp [Field.wellTyped] at h
        | some n =>
          have hn : n = xs.length := by
            have := h.1
            simp only [Field.wellTyped, Option.some.injEq, Bool.and_eq_true,
              decide_eq_true_eq] at this
            exact this.1
          simp [arrayLengths, NxStruct.dims, List.filterMap_cons, ih vs h.2, hn]

theorem arrayLengths_of_decode (s : NxStruct) (bs : List Nat) (r : Record) (rest : List Nat)
    (h : decode s bs = some (r, rest)) : arrayLengths r = s.dims := by
  induction s generalizing bs r rest with
  | nil =>
    simp only [decode, Option.some.injEq, Prod.mk.injEq] at h
    rw [← h.1]; rfl
  | cons f fs ih =>
    simp only [decode] at h
    cases hf : f.decode bs with
    | none => simp [hf] at h
    | some p =>
      obtain ⟨v, r1⟩ := p
      simp only [hf] at h
      cases hd : decode fs r1 with
      | none => simp [hd] at h
      | some q =>
        obtain ⟨vs, r2⟩ := q
        simp only [hd, Option.some.injEq, Prod.mk.injEq] at h
        have ihd := ih _ _ _ hd
        obtain ⟨name, ty, dim⟩ := f
        rw [← h.1]
        cases dim with
        | none =>
          simp only [Field.decode] at hf
          cases hs : decodeScalar ty bs with
          | none => simp [hs] at hf
          | some w =>
            simp only [hs, Option.some.injEq, Prod.mk.injEq] at hf
            rw [← hf.1]
            simp [arrayLengths, NxStruct.dims, List.filterMap_cons, ihd]
        | some n =>
          simp only [Field.decode] at hf
          cases ha : decodeArray ty n bs with
          | none => simp [ha] at hf
          | some w =>
            obtain ⟨ws, r3⟩ := w
            simp only [ha, Option.some.injEq, Prod.mk.injEq] at hf
            rw [← hf.1]
            simp [arrayLengths, NxStruct.dims, List.filterMap_cons, ihd,
              decodeArray_length ty n bs ws r3 ha]

/-! ## Decoding succeeds on every byte string that is long enough -/

theorem decodeArray_of_length (t : NxType) (n : Nat) (bs : List Nat)
    (h : n * t.size ≤ bs.length) :
    ∃ vs, decodeArray t n bs = some (vs, bs.drop (n * t.size)) := by
  induction n generalizing bs with
  | zero => exact ⟨[], by simp [decodeArray]⟩
  | succ n ih =>
    have hs : t.size ≤ bs.length := by
      have : t.size ≤ (n + 1) * t.size := Nat.le_mul_of_pos_left _ (Nat.succ_pos n)
      omega
    have hn : n * t.size ≤ (bs.drop t.size).length := by
      rw [List.length_drop, Nat.succ_mul] at *
      omega
    obtain ⟨vs, hvs⟩ := ih (bs.drop t.size) hn
    refine ⟨t.ntoh (bs.take t.size) :: vs, ?_⟩
    simp only [decodeArray, decodeScalar, if_pos hs, hvs, List.drop_drop, Nat.succ_mul,
      Nat.add_comm]

theorem Field.decode_member_of_length (f : Field) (bs : List Nat) (h : f.size ≤ bs.length) :
    ∃ v, f.decode bs = some (v, bs.drop f.size) := by
  obtain ⟨name, ty, dim⟩ := f
  cases dim with
  | none =>
    simp only [Field.size] at h
    exact ⟨Value.scalar (ty.ntoh (bs.take ty.size)),
      by simp [Field.decode, decodeScalar, h, Field.size]⟩
  | some n =>
    simp only [Field.size] at h
    obtain ⟨vs, hvs⟩ := decodeArray_of_length ty n bs h
    exact ⟨Value.array vs, by simp [Field.decode, hvs, Field.size]⟩

theorem decode_of_length (s : NxStruct) (bs : List Nat) (h : s.size ≤ bs.length) :
    ∃ r, decode s bs = some (r, bs.drop s.size) := by
  induction s generalizing bs with
  | nil => exact ⟨[], by simp [decode, NxStruct.size]⟩
  | cons f fs ih =>
    have hsz : NxStruct.size (f :: fs) = f.size + NxStruct.size fs := by
      simp [NxStruct.size]
    rw [hsz] at h
    obtain ⟨v, hv⟩ := Field.decode_member_of_length f bs (by omega)
    have hl : NxStruct.size fs ≤ (bs.drop f.size).length := by
      rw [List.length_drop]; omega
    obtain ⟨r, hr⟩ := ih (bs.drop f.size) hl
    refine ⟨v :: r, ?_⟩
    simp only [decode, hv, hr, List.drop_drop, hsz, Nat.add_comm]

/-! ## Wire examples

The encoder on concrete records: most significant byte first, two's complement,
no padding between members. -/

theorem encode_PingMsg_example :
    encode PingMsg [.scalar 1, .scalar 0x1234, .scalar 3, .scalar 4]
      = some [0x01, 0x12, 0x34, 0x03, 0x04] := by
  decide

theorem encode_RssiMsg_example :
    encode RssiMsg [.scalar 1, .scalar 2, .scalar 0x1234, .scalar (-2), .scalar (-32768)]
      = some [0x01, 0x02, 0x12, 0x34, 0xff, 0xfe, 0x80, 0x00] := by
  decide

theorem encode_TimeSyncMsg_example :
    encode TimeSyncMsg [.scalar 1, .scalar 0x01020304, .scalar 0xfffefdfc, .scalar 4]
      = some [0x01, 0x01, 0x02, 0x03, 0x04, 0xff, 0xfe, 0xfd, 0xfc, 0x04] := by
  decide

/-! ## Claims about the structures -/

/-- C1: for each of the twelve listed structures and every record whose member
values lie in their declared ranges (arrays holding exactly their declared
number of elements), the record has an encoding, and decoding that encoding,
whatever bytes follow it, returns exactly the record and leaves those bytes. -/
theorem C1_roundTrip (s : NxStruct) (_hs : s ∈ roundTripStructs) (r : Record)
    (rest : List Nat) (hr : wellTyped s r = true) :
    ∃ bs, encode s r = some bs ∧ decode s (bs ++ rest) = some (r, rest) := by
  obtain ⟨bs, h1, _, h3⟩ := decode_encode_struct s r hr
  exact ⟨bs, h1, h3 rest⟩

/-- The round trip on an `RssiMsg` with negative RSSI values, one trailing byte
left over. -/
theorem C1_roundTrip_witness :
    RssiMsg ∈ roundTripStructs ∧
      wellTyped RssiMsg
        [.scalar 1, .scalar 2, .scalar 0x1234, .scalar (-2), .scalar (-32768)] = true ∧
      ∃ bs, encode RssiMsg
          [.scalar 1, .scalar 2, .scalar 0x1234, .scalar (-2), .scalar (-32768)] = some bs ∧
        decode RssiMsg (bs ++ [7])
          = some ([.scalar 1, .scalar 2, .scalar 0x1234, .scalar (-2), .scalar (-32768)], [7]) :=
  ⟨by simp [roundTripStructs], by decide,
   C1_roundTrip RssiMsg (by simp [roundTripStructs])
     [.scalar 1, .scalar 2, .scalar 0x1234, .scalar (-2), .scalar (-32768)] [7] (by decide)⟩

/-- C2: each listed structure occupies the stated number of bytes, the sum of
its members' widths, and every record of the structure encodes to exactly that
many bytes, whatever its member values. -/
theorem C2_sizes (s : NxStruct) (n : Nat)
    (h : (s, n) ∈ [(TimeSyncMsg, 10), (RssiMsg, 8), (PingMsg, 5), (MultiPingMsg, 13),
      (NoiseFloorReadingMsg, 4), (MultiPingResponseMsg, 2),
      (MultiPingResponseReportMsg, 24), (MassReportMsg, 18),
      (MultiPingResponseTinyReportMsg, 8), (CommandMsg, 17), (IdentifyMsg, 19),
      (CtpResponseMsg, 11), (CtpSendRequestMsg, 12)]) :
    s.size = n ∧ (s.map Field.size).sum = n ∧
      ∀ r, wellTyped s r = true → ∃ bs, encode s r = some bs ∧ bs.length = n := by
  have table : ∀ p ∈ [(TimeSyncMsg, 10), (RssiMsg, 8), (PingMsg, 5), (MultiPingMsg, 13),
      (NoiseFloorReadingMsg, 4), (MultiPingResponseMsg, 2),
      (MultiPingResponseReportMsg, 24), (MassReportMsg, 18),
      (MultiPingResponseTinyReportMsg, 8), (CommandMsg, 17), (IdentifyMsg, 19),
      (CtpResponseMsg, 11), (CtpSendRequestMsg, 12)], NxStruct.size p.1 = p.2 := by
    decide
  have key : s.size = n := table (s, n) h
  refine ⟨key, key, fun r hr => ?_⟩
  obtain ⟨bs, h1, h2, _⟩ := decode_encode_struct s r hr
  exact ⟨bs, h1, h2.trans key⟩

/-- The size statement at `MultiPingMsg`, whose two `nx_bool` members take one
byte each. -/
theorem C2_sizes_witness :
    MultiPingMsg.size = 13 ∧ (MultiPingMsg.map Field.size).sum = 13 ∧
      ∀ r, wellTyped MultiPingMsg r = true →
        ∃ bs, encode MultiPingMsg r = some bs ∧ bs.length = 13 :=
  C2_sizes MultiPingMsg 13 (by simp)

/-- C6: with three entries per report and a payload of 34 bytes, every
structure the header declares in full, the two report packets (24 and 18
bytes) and `CtpInfoMsg` included, occupies and encodes to fewer bytes than
`TOSH_DATA_LENGTH`. -/
theorem C6_fits_payload (s : NxStruct) (hs : s ∈ declaredStructs) :
    MULTIPINGRESPONSEREPORT_MAXDATA = 3 ∧ TOSH_DATA_LENGTH = 34 ∧
      MultiPingResponseReportMsg.size = 24 ∧ MassReportMsg.size = 18 ∧
      CtpInfoMsg_size < TOSH_DATA_LENGTH ∧
      s.size < TOSH_DATA_LENGTH ∧
      ∀ r, wellTyped s r = true →
        ∃ bs, encode s r = some bs ∧ bs.length < TOSH_DATA_LENGTH := by
  have table : ∀ d ∈ declaredStructs, NxStruct.size d < TOSH_DATA_LENGTH := by decide
  have key : s.size < TOSH_DATA_LENGTH := table s hs
  refine ⟨rfl, rfl, rfl, rfl, by decide, key, fun r hr => ?_⟩
  obtain ⟨bs, h1, h2, _⟩ := decode_encode_struct s r hr
  exact ⟨bs, h1, h2 ▸ key⟩

/-- The payload bound at the largest structure, `MultiPingResponseReportMsg`. -/
theorem C6_fits_payload_witness :
    MULTIPINGRESPONSEREPORT_MAXDATA = 3 ∧ TOSH_DATA_LENGTH = 34 ∧
      MultiPingResponseReportMsg.size = 24 ∧ MassReportMsg.size = 18 ∧
      CtpInfoMsg_size < TOSH_DATA_LENGTH ∧
      MultiPingResponseReportMsg.size < TOSH_DATA_LENGTH ∧
      ∀ r, wellTyped MultiPingResponseReportMsg r = true →
        ∃ bs, encode MultiPingResponseReportMsg r = some bs ∧
          bs.length < TOSH_DATA_LENGTH :=
  C6_fits_payload MultiPingResponseReportMsg (by simp [declaredStructs])

/-- A report whose entry count `datanum` is 200, far above 3, is a value of
`MassReportMsg`: it encodes to 18 bytes and those bytes decode to it. -/
theorem C7_datanum_counterexample :
    (3 : Int) < 200 ∧
    encode MassReportMsg [.scalar 1, .scalar 200, .array [1, 2, 3], .array [4, 5, 6],
        .array [-1, -2, -3]]
      = some [0, 1, 200, 1, 2, 3, 0, 4, 0, 5, 0, 6, 255, 255, 255, 254, 255, 253] ∧
    decode MassReportMsg [0, 1, 200, 1, 2, 3, 0, 4, 0, 5, 0, 6, 255, 255, 255, 254, 255, 253]
      = some ([.scalar 1, .scalar 200, .array [1, 2, 3], .array [4, 5, 6],
        .array [-1, -2, -3]], []) := by
  decide

/-- C7, amended: the report arrays are declared with exactly
`MULTIPINGRESPONSEREPORT_MAXDATA = 3` elements and `command_data_next` with
exactly 4; every record of these structures holds exactly that many elements
in each array; an encoded report is 24 (resp. 18) bytes, the room of three
entries, and every byte string of at least that length decodes to a report
with exactly three entries per array; the entry count `datanum` is not bounded
by the layout: a report with any `datanum` in 0..255 encodes and decodes
unchanged. -/
theorem C7_bounded_arrays :
    MULTIPINGRESPONSEREPORT_MAXDATA = 3 ∧
    (MultiPingResponseReportMsg.dimOf "nodeid" = some 3 ∧
      MultiPingResponseReportMsg.dimOf "nodecounter" = some 3 ∧
      MultiPingResponseReportMsg.dimOf "rssi" = some 3 ∧
      MultiPingResponseReportMsg.dimOf "len" = some 3) ∧
    (MassReportMsg.dimOf "nodeid" = some 3 ∧
      MassReportMsg.dimOf "nodecounter" = some 3 ∧
      MassReportMsg.dimOf "rssi" = some 3) ∧
    (CommandMsg.dimOf "command_data_next" = some 4 ∧
      IdentifyMsg.dimOf "command_data_next" = some 4) ∧
    (∀ r, wellTyped MultiPingResponseReportMsg r = true → arrayLengths r = [3, 3, 3, 3]) ∧
    (∀ r, wellTyped MassReportMsg r = true → arrayLengths r = [3, 3, 3]) ∧
    (∀ r, wellTyped CommandMsg r = true → arrayLengths r = [4]) ∧
    (∀ r, wellTyped IdentifyMsg r = true → arrayLengths r = [4]) ∧
    (∀ r, wellTyped MultiPingResponseReportMsg r = true →
      ∃ bs, encode MultiPingResponseReportMsg r = some bs ∧
        bs.length = 3 + 3 * (2 + 2 + 2 + 1)) ∧
    (∀ r, wellTyped MassReportMsg r = true →
      ∃ bs, encode MassReportMsg r = some bs ∧ bs.length = 3 + 3 * (1 + 2 + 2)) ∧
    (∀ bs : List Nat, 24 ≤ bs.length →
      ∃ r, decode MultiPingResponseReportMsg bs = some (r, bs.drop 24) ∧
        arrayLengths r = [3, 3, 3, 3]) ∧
    (∀ bs : List Nat, 18 ≤ bs.length →
      ∃ r, decode MassReportMsg bs = some (r, bs.drop 18) ∧ arrayLengths r = [3, 3, 3]) ∧
    (∀ d : Int, 0 ≤ d → d < 256 →
      wellTyped MultiPingResponseReportMsg [.scalar 0, .scalar d, .array [0, 0, 0],
        .array [0, 0, 0], .array [0, 0, 0], .array [0, 0, 0]] = true ∧
      ∃ bs, encode MultiPingResponseReportMsg [.scalar 0, .scalar d, .array [0, 0, 0],
          .array [0, 0, 0], .array [0, 0, 0], .array [0, 0, 0]] = some bs ∧
        decode MultiPingResponseReportMsg bs = some ([.scalar 0, .scalar d,
          .array [0, 0, 0], .array [0, 0, 0], .array [0, 0, 0], .array [0, 0, 0]], [])) ∧
    (∀ d : Int, 0 ≤ d → d < 256 →
      wellTyped MassReportMsg [.scalar 0, .scalar d, .array [0, 0, 0], .array [0, 0, 0],
        .array [0, 0, 0]] = true ∧
      ∃ bs, encode MassReportMsg [.scalar 0, .scalar d, .array [0, 0, 0], .array [0, 0, 0],
          .array [0, 0, 0]] = some bs ∧
        decode MassReportMsg bs = some ([.scalar 0, .scalar d, .array [0, 0, 0],
          .array [0, 0, 0], .array [0, 0, 0]], [])) := by
  have d1 : MultiPingResponseReportMsg.dims = [3, 3, 3, 3] := by decide
  have d2 : MassReportMsg.dims = [3, 3, 3] := by decide
  have d3 : CommandMsg.dims = [4] := by decide
  have d4 : IdentifyMsg.dims = [4] := by decide
  have z1 : MultiPingResponseReportMsg.size = 24 := rfl
  have z2 : MassReportMsg.size = 18 := rfl
  have u8 : ∀ d : Int, 0 ≤ d → d < 256 → NxType.nx_uint8_t.inRange d = true := by
    intro d h0 h1
    simp only [NxType.inRange, NxType.isSigned, NxType.size, Bool.false_eq_true, if_false,
      decide_eq_true_eq]
    norm_num
    exact ⟨h0, h1⟩
  refine ⟨rfl, by decide, by decide, by decide, ?_, ?_, ?_, ?_, ?_, ?_, ?_, ?_, ?_, ?_⟩
  · intro r hr; rw [arrayLengths_of_wellTyped _ r hr, d1]
  · intro r hr; rw [arrayLengths_of_wellTyped _ r hr, d2]
  · intro r hr; rw [arrayLengths_of_wellTyped _ r hr, d3]
  · intro r hr; rw [arrayLengths_of_wellTyped _ r hr, d4]
  · intro r hr
    obtain ⟨bs, h1, h2, _⟩ := decode_encode_struct _ r hr
    exact ⟨bs, h1, h2.trans z1⟩
  · intro r hr
    obtain ⟨bs, h1, h2, _⟩ := decode_encode_struct _ r hr
    exact ⟨bs, h1, h2.trans z2⟩
  · intro bs hbs
    obtain ⟨r, hr⟩ := decode_of_length MultiPingResponseReportMsg bs (by rw [z1]; exact hbs)
    rw [z1] at hr
    exact ⟨r, hr, by rw [arrayLengths_of_decode _ bs r _ hr, d1]⟩
  · intro bs hbs
    obtain ⟨r, hr⟩ := decode_of_length MassReportMsg bs (by rw [z2]; exact hbs)
    rw [z2] at hr
    exact ⟨r, hr, by rw [arrayLengths_of_decode _ bs r _ hr, d2]⟩
  · intro d h0 h1
    have hw : wellTyped MultiPingResponseReportMsg [.scalar 0, .scalar d, .array [0, 0, 0],
        .array [0, 0, 0], .array [0, 0, 0], .array [0, 0, 0]] = true := by
      have hd := u8 d h0 h1
      simp only [wellTyped, MultiPingResponseReportMsg, Field.wellTyped, hd,
        Bool.and_eq_true]
      decide
    obtain ⟨bs, h2, _, h3⟩ := decode_encode_struct _ _ hw
    exact ⟨hw, bs, h2, by simpa using h3 []⟩
  · intro d h0 h1
    have hw : wellTyped MassReportMsg [.scalar 0, .scalar d, .array [0, 0, 0],
        .array [0, 0, 0], .array [0, 0, 0]] = true := by
      have hd := u8 d h0 h1
      simp only [wellTyped, MassReportMsg, Field.wellTyped, hd, Bool.and_eq_true]
      decide
    obtain ⟨bs, h2, _, h3⟩ := decode_encode_struct _ _ hw
    exact ⟨hw, bs, h2, by simpa using h3 []⟩

/-- The unbounded entry count at `datanum = 255` in a `MassReportMsg`. -/
theorem C7_bounded_arrays_witness :
    (0 : Int) ≤ 255 ∧ (255 : Int) < 256 ∧
      wellTyped MassReportMsg [.scalar 0, .scalar 255, .array [0, 0, 0], .array [0, 0, 0],
        .array [0, 0, 0]] = true ∧
      ∃ bs, encode MassReportMsg [.scalar 0, .scalar 255, .array [0, 0, 0],
          .array [0, 0, 0], .array [0, 0, 0]] = some bs ∧
        decode MassReportMsg bs = some ([.scalar 0, .scalar 255, .array [0, 0, 0],
          .array [0, 0, 0], .array [0, 0, 0]], []) :=
  ⟨by decide, by decide,
   C7_bounded_arrays.2.2.2.2.2.2.2.2.2.2.2.2.2 255 (by decide) (by decide)⟩

/-! ## `CtpInfoMsg` -/

theorem CtpInfoArm.layout_size_le (a : CtpInfoArm) : a.layout.size ≤ CtpInfoMsg_unionSize := by
  cases a <;> decide

/-- C8: whatever arm a discriminator selects, a `CtpInfoMsg` holding a value
of that arm encodes to 13 bytes, the type byte first and the arm's bytes from
offset 1 on, and decoding returns the same discriminator, the arm it selects
and the same arm value; the arms occupy 12, 11 and 9 bytes and the message
1 + 12 = 13. -/
theorem C8_union_roundTrip (sel : Int → CtpInfoArm) (t : Int) (r : Record)
    (fill rest : List Nat)
    (ht : NxType.nx_uint8_t.inRange t = true)
    (hr : wellTyped (sel t).layout r = true)
    (hfill : fill.length = CtpInfoMsg_unionSize) :
    (∃ bs ab, encodeCtpInfoMsg t (sel t) r fill = some bs ∧
      decodeCtpInfoMsg sel (bs ++ rest) = some (t, sel t, r, rest) ∧
      bs.length = 13 ∧
      bs.take CtpInfoMsg_unionOffset = NxType.nx_uint8_t.hton t ∧
      encode (sel t).layout r = some ab ∧
      (bs.drop CtpInfoMsg_unionOffset).take ab.length = ab) ∧
    CtpInfoMsg_unionOffset = 1 ∧
    CtpInfoArm.data.layout.size = 12 ∧
    CtpInfoArm.status.layout.size = 11 ∧
    CtpInfoArm.neighInfo.layout.size = 9 ∧
    CtpInfoMsg_unionSize = 12 ∧
    CtpInfoMsg_size = 1 + max 12 (max 11 9) ∧
    CtpInfoMsg_size = 13 := by
  refine ⟨?_, rfl, rfl, rfl, rfl, rfl, rfl, rfl⟩
  obtain ⟨ab, ha, hal, had⟩ := decode_encode_struct (sel t).layout r hr
  have hle : ab.length ≤ fill.length := by
    rw [hal, hfill]; exact CtpInfoArm.layout_size_le _
  have hu : CtpInfoMsg_unionSize = 12 := rfl
  have htl : (NxType.nx_uint8_t.hton t).length = 1 := hton_length _ t
  have hbody : (ab ++ fill.drop ab.length).length = CtpInfoMsg_unionSize := by
    rw [List.length_append, List.length_drop, ← hfill]; omega
  refine ⟨NxType.nx_uint8_t.hton t ++ (ab ++ fill.drop ab.length), ab, ?_, ?_, ?_, ?_, ha, ?_⟩
  · simp [encodeCtpInfoMsg, hfill, Field.encode, Field.wellTyped, CtpInfoMsg_type, ht, ha]
  · have h1 : decodeScalar CtpInfoMsg_type.ty
        (NxType.nx_uint8_t.hton t ++ (ab ++ fill.drop ab.length) ++ rest)
        = some (t, ab ++ fill.drop ab.length ++ rest) := by
      rw [List.append_assoc]
      exact decodeScalar_hton NxType.nx_uint8_t t _ ht
    have h2 : CtpInfoMsg_unionSize ≤ (ab ++ fill.drop ab.length ++ rest).length := by
      rw [List.length_append, hbody]; omega
    have h3 : (ab ++ fill.drop ab.length ++ rest).take CtpInfoMsg_unionSize
        = ab ++ fill.drop ab.length := by
      rw [← hbody]; exact List.take_left _ _
    have h4 : (ab ++ fill.drop ab.length ++ rest).drop CtpInfoMsg_unionSize = rest := by
      rw [← hbody]; exact List.drop_left _ _
    simp only [decodeCtpInfoMsg, h1, h2, if_true, h3, h4, had]
  · rw [List.length_append, hbody, htl, hu]
  · have : CtpInfoMsg_unionOffset = (NxType.nx_uint8_t.hton t).length := by rw [htl]; rfl
    rw [this]; exact List.take_left _ _
  · have : CtpInfoMsg_unionOffset = (NxType.nx_uint8_t.hton t).length := by rw [htl]; rfl
    rw [this, List.drop_left]; exact List.take_left _ _

/-- The union round trip for a `neighInfo` message under a selection that maps
discriminator 0 to `status`, 1 to `neighInfo` and the rest to `data`. -/
theorem C8_union_roundTrip_witness :
    NxType.nx_uint8_t.inRange 1 = true ∧
    wellTyped CtpInfoArm.neighInfo.layout
      [.scalar 3, .scalar 0x0102, .scalar 0x0304, .scalar 0x0506, .scalar 0x0708] = true ∧
    (List.replicate 12 0xAA).length = CtpInfoMsg_unionSize ∧
    (∃ bs ab, encodeCtpInfoMsg 1 CtpInfoArm.neighInfo
        [.scalar 3, .scalar 0x0102, .scalar 0x0304, .scalar 0x0506, .scalar 0x0708]
        (List.replicate 12 0xAA) = some bs ∧
      decodeCtpInfoMsg (fun d => if d = 0 then .status else if d = 1 then .neighInfo else .data)
        (bs ++ [9]) = some (1, CtpInfoArm.neighInfo,
          [.scalar 3, .scalar 0x0102, .scalar 0x0304, .scalar 0x0506, .scalar 0x0708], [9]) ∧
      bs.length = 13 ∧
      bs.take CtpInfoMsg_unionOffset = NxType.nx_uint8_t.hton 1 ∧
      encode CtpInfoArm.neighInfo.layout
        [.scalar 3, .scalar 0x0102, .scalar 0x0304, .scalar 0x0506, .scalar 0x0708] = some ab ∧
      (bs.drop CtpInfoMsg_unionOffset).take ab.length = ab) :=
  ⟨by decide, by decide, by decide,
   (C8_union_roundTrip
      (fun d => if d = 0 then .status else if d = 1 then .neighInfo else .data) 1
      [.scalar 3, .scalar 0x0102, .scalar 0x0304, .scalar 0x0506, .scalar 0x0708]
      (List.replicate 12 0xAA) [9] (by decide) (by decide) (by decide)).1⟩

/-- The bytes of that message: type byte, nine bytes of `neighInfo`, and the
three bytes of the union it leaves untouched. -/
theorem encodeCtpInfoMsg_example :
    encodeCtpInfoMsg 1 CtpInfoArm.neighInfo
        [.scalar 3, .scalar 0x0102, .scalar 0x0304, .scalar 0x0506, .scalar 0x0708]
        (List.replicate 12 0xAA)
      = some [1, 3, 1, 2, 3, 4, 5, 6, 7, 8, 0xAA, 0xAA, 0xAA] := by
  decide

/-! ## Bit fields -/

theorem and_shifted_mask (A s k : Nat) :
    A &&& ((2 ^ k - 1) <<< s) = (A >>> s % 2 ^ k) <<< s := by
  apply Nat.eq_of_testBit_eq
  intro i
  simp only [Nat.testBit_and, Nat.testBit_shiftLeft, Nat.testBit_shiftRight,
    Nat.testBit_mod_two_pow, Nat.testBit_two_pow_sub_one]
  by_cases h : s ≤ i
  · simp [h, Nat.add_sub_cancel' h, Bool.and_comm]
  · simp [h]

/-- Extracting with a mask of `k` ones starting at bit `s` and the scale `2^s`
yields the `k`-bit number at bit `s`. -/
theorem extractField_eq (A s k : Nat) :
    extractField ((2 ^ k - 1) * 2 ^ s) (2 ^ s) A = A / 2 ^ s % 2 ^ k := by
  unfold extractField
  rw [← Nat.shiftLeft_eq, and_shifted_mask, Nat.shiftLeft_eq, Nat.shiftRight_eq_div_pow,
    Nat.mul_div_cancel _ (by positivity)]

/-- C4: evaluation of the header's constants.  `MASK_TYPE_READ` is `0x1C00`
(7168), not the 3072 (`0x0C00`) its comment gives: on the reading `0x1000` the
extraction `(A & MASK_TYPE_READ) / SCALE_TYPE_READ` yields 4, outside 0..3,
where `(A & 0x0C00) / 0x0400` yields 0; and the two readingLong masks, though
disjoint, cover `0x1FFF`, not `0x0FFF`. -/
theorem C4_type_read_mask :
    MASK_TYPE_READ = 0x1C00 ∧ MASK_TYPE_READ ≠ 3072 ∧
      extractField MASK_TYPE_READ SCALE_TYPE_READ 0x1000 = 4 ∧
      (0x1000 &&& 0x0C00) / 0x0400 = 0 ∧
      MASK_TYPE_READ &&& MASK_NUM_ALERT = 0 ∧
      MASK_TYPE_READ ||| MASK_NUM_ALERT = 0x1FFF ∧
      MASK_TYPE_READ ||| MASK_NUM_ALERT ≠ 0x0FFF := by
  decide

/-- On readings that keep the four high bits clear, as the readingLong layout
`0000 xxxx xxxx xxxx` asks, the declared mask extracts the same type reading
as the mask of the comment. -/
theorem type_read_agrees_below_0x1000 (A : Nat) (hA : A < 0x1000) :
    extractField MASK_TYPE_READ SCALE_TYPE_READ A = (A &&& 0x0C00) / 0x0400 ∧
      extractField MASK_TYPE_READ SCALE_TYPE_READ A ≤ 3 := by
  have h1 : extractField MASK_TYPE_READ SCALE_TYPE_READ A = A / 2 ^ 10 % 2 ^ 3 :=
    extractField_eq A 10 3
  have h2 : (A &&& 0x0C00) / 0x0400 = A / 2 ^ 10 % 2 ^ 2 := extractField_eq A 10 2
  rw [h1, h2]
  norm_num
  omega

/-- C5: the five ConditionTypeValide masks are pairwise disjoint, their union
is `0x1FFF`, each scale is the lowest set bit of its mask, and every
`A < 0x2000` is recomposed exactly from its five extracted fields, which lie
in 0..1, 0..15, 0..15, 0..1 and 0..7. -/
theorem C5_condition_fields (A : Nat) (hA : A < 0x2000) :
    (conditionFields.map Prod.fst).Pairwise (fun m n => m &&& n = 0) ∧
    MASK_LAST_LINE ||| MASK_TYPE ||| MASK_VERB ||| MASK_SELECT_MSG ||| MASK_MSG_LOGIC
      = 0x1FFF ∧
    (∀ p ∈ conditionFields, ∃ k, p.2 = 2 ^ k ∧ p.1.testBit k = true ∧
      ∀ j < k, p.1.testBit j = false) ∧
    A = extractField MASK_LAST_LINE SCALE_LAST_LINE A * SCALE_LAST_LINE
        + extractField MASK_TYPE SCALE_TYPE A * SCALE_TYPE
        + extractField MASK_VERB SCALE_VERB A * SCALE_VERB
        + extractField MASK_SELECT_MSG SCALE_SELECT_MSG A * SCALE_SELECT_MSG
        + extractField MASK_MSG_LOGIC SCALE_MSG_LOGIC A * SCALE_MSG_LOGIC ∧
    extractField MASK_LAST_LINE SCALE_LAST_LINE A ≤ 1 ∧
    extractField MASK_TYPE SCALE_TYPE A ≤ 15 ∧
    extractField MASK_VERB SCALE_VERB A ≤ 15 ∧
    extractField MASK_SELECT_MSG SCALE_SELECT_MSG A ≤ 1 ∧
    extractField MASK_MSG_LOGIC SCALE_MSG_LOGIC A ≤ 7 := by
  have e1 : extractField MASK_LAST_LINE SCALE_LAST_LINE A = A / 2 ^ 12 % 2 ^ 1 :=
    extractField_eq A 12 1
  have e2 : extractField MASK_TYPE SCALE_TYPE A = A / 2 ^ 8 % 2 ^ 4 := extractField_eq A 8 4
  have e3 : extractField MASK_VERB SCALE_VERB A = A / 2 ^ 4 % 2 ^ 4 := extractField_eq A 4 4
  have e4 : extractField MASK_SELECT_MSG SCALE_SELECT_MSG A = A / 2 ^ 3 % 2 ^ 1 :=
    extractField_eq A 3 1
  have e5 : extractField MASK_MSG_LOGIC SCALE_MSG_LOGIC A = A / 2 ^ 0 % 2 ^ 3 :=
    extractField_eq A 0 3
  have s1 : SCALE_LAST_LINE = 4096 := rfl
  have s2 : SCALE_TYPE = 256 := rfl
  have s3 : SCALE_VERB = 16 := rfl
  have s4 : SCALE_SELECT_MSG = 8 := rfl
  have s5 : SCALE_MSG_LOGIC = 1 := rfl
  refine ⟨by decide, by decide, ?_, ?_, ?_, ?_, ?_, ?_, ?_⟩
  · intro p hp
    simp only [conditionFields, List.mem_cons, List.mem_singleton, List.not_mem_nil,
      or_false] at hp
    rcases hp with rfl | rfl | rfl | rfl | rfl
    · exact ⟨12, by decide⟩
    · exact ⟨8, by decide⟩
    · exact ⟨4, by decide⟩
    · exact ⟨3, by decide⟩
    · exact ⟨0, by decide⟩
  · rw [e1, e2, e3, e4, e5, s1, s2, s3, s4, s5]
    norm_num
    omega
  · rw [e1]; norm_num; omega
  · rw [e2]; norm_num; omega
  · rw [e3]; norm_num; omega
  · rw [e4]; norm_num; omega
  · rw [e5]; norm_num; omega

/-- The recomposition at `0x1ABC`. -/
theorem C5_condition_fields_witness :
    0x1ABC < 0x2000 ∧
      0x1ABC = extractField MASK_LAST_LINE SCALE_LAST_LINE 0x1ABC * SCALE_LAST_LINE
        + extractField MASK_TYPE SCALE_TYPE 0x1ABC * SCALE_TYPE
        + extractField MASK_VERB SCALE_VERB 0x1ABC * SCALE_VERB
        + extractField MASK_SELECT_MSG SCALE_SELECT_MSG 0x1ABC * SCALE_SELECT_MSG
        + extractField MASK_MSG_LOGIC SCALE_MSG_LOGIC 0x1ABC * SCALE_MSG_LOGIC :=
  ⟨by decide, (C5_condition_fields 0x1ABC (by decide)).2.2.2.1⟩

/-! ## Enumerations -/

/-- The range 10..0x72 does not hold every identifier: `AM_TIMESYNCMSG` is
`0xea`. -/
theorem C3_am_range_counterexample :
    AmKind.TIMESYNCMSG.amId = 0xea ∧
      ¬ (10 ≤ AmKind.TIMESYNCMSG.amId ∧ AmKind.TIMESYNCMSG.amId ≤ 0x72) := by
  decide

/-- C3, amended: every identifier of the `AM_*` enumeration has a value `v`
with `10 <= v <= 0xef`. -/
theorem C3_am_range (k : AmKind) : 10 ≤ k.amId ∧ k.amId ≤ 0xef := by
  cases k <;> decide

/-- C9: the fifteen identifiers of the `AM_*` enumeration are pairwise
distinct: the map from message kind to identifier is injective, and at most
one message kind carries a given identifier. -/
theorem C9_am_injective :
    AmKind.all.length = 15 ∧ (∀ k : AmKind, k ∈ AmKind.all) ∧
      (AmKind.all.map AmKind.amId).Nodup ∧
      (∀ a b : AmKind, a ≠ b → a.amId ≠ b.amId) ∧
      Function.Injective AmKind.amId ∧
      ∀ v : Nat, (AmKind.all.filter (fun k => k.amId == v)).length ≤ 1 := by
  have inj : Function.Injective AmKind.amId := by
    intro a b h
    cases a <;> cases b <;> first | rfl | exact absurd h (by decide)
  have nd : AmKind.all.Nodup := by decide
  refine ⟨rfl, fun k => by cases k <;> decide, by decide, fun a b hab h => hab (inj h), inj, ?_⟩
  intro v
  have hnd : (AmKind.all.filter (fun k => k.amId == v)).Nodup := nd.filter _
  have hmem : ∀ x ∈ AmKind.all.filter (fun k => k.amId == v), x.amId = v := by
    intro x hx
    simpa using (List.mem_filter.1 hx).2
  generalize AmKind.all.filter (fun k => k.amId == v) = L at hnd hmem
  match L, hnd, hmem with
  | [], _, _ => simp
  | [_], _, _ => simp
  | a :: b :: l, hnd, hmem =>
    have hab : a = b := inj ((hmem a (by simp)).trans (hmem b (by simp)).symm)
    subst hab
    simp at hnd

/-- Two neighbouring identifiers, `0xec` and `0xed`, differ. -/
theorem C9_am_injective_witness :
    AmKind.CTPINFOMSG ≠ AmKind.CTPREPORTDATAMSG ∧
      AmKind.CTPINFOMSG.amId ≠ AmKind.CTPREPORTDATAMSG.amId :=
  ⟨by decide, C9_am_injective.2.2.2.1 _ _ (by decide)⟩

/-- C10: the `COMMAND_*` enumeration has 39 pairwise distinct codes, which
are exactly the values 0..38 (`COMMAND_NONE` = 0, the last one 38,
`COMMAND_SETSAMPLESENSORREADING` = 24 declared out of order); every code fits
the 8-bit `command_code` member and every value in 0..38 is the code of
exactly one command. -/
theorem C10_command_codes :
    commandCodes.length = 39 ∧ commandCodes.Nodup ∧
      (∀ v : Nat, v ∈ commandCodes ↔ v ≤ 38) ∧
      COMMAND_NONE = 0 ∧ COMMAND_TIMESYNC_GETGLOBAL_BCAST = 38 ∧
      COMMAND_SETSAMPLESENSORREADING = 24 ∧
      CommandMsg.head? = some ⟨"command_code", NxType.nx_uint8_t, none⟩ ∧
      (∀ c ∈ commandCodes, NxType.nx_uint8_t.inRange (c : Int) = true) ∧
      (∀ v : Nat, v ≤ 38 → commandCodes.count v = 1) := by
  have h1 : ∀ c ∈ commandCodes, c ≤ 38 := by decide
  have h2 : ∀ v : Nat, v < 39 → v ∈ commandCodes := by decide
  refine ⟨rfl, by decide, fun v => ⟨h1 v, fun hv => h2 v (by omega)⟩, rfl, rfl, rfl, rfl,
    by decide, ?_⟩
  have h3 : ∀ v : Nat, v < 39 → commandCodes.count v = 1 := by decide
  exact fun v hv => h3 v (by omega)

/-- The out-of-order code 24 names exactly one command. -/
theorem C10_command_codes_witness :
    COMMAND_SETSAMPLESENSORREADING ≤ 38 ∧ commandCodes.count COMMAND_SETSAMPLESENSORREADING = 1 :=
  ⟨by decide, C10_command_codes.2.2.2.2.2.2.2.2 _ (by decide)⟩

end TinyOSIDS
